import Mathlib

/-!
Verification of the zoneinfo-compiled TZif decoding pipeline.

This development shallowly embeds the two-stage pipeline of the repository:
the structural parser (`src/parser.rs`: cursor-based reads over a byte
buffer, `Limits` policy, `parse`) and the cooking layer (`src/lib.rs`:
`cook`, `flags_to_transition_type`).

Modelling conventions:
* a byte buffer (`Vec<u8>` / `Cursor<Vec<u8>>`) is a `List Nat` of bytes,
  consumed from the front; the cursor position is the already-dropped prefix;
* `u32`/`u8` values are `Nat`; `i32` values are `Int` obtained from the
  unsigned 32-bit value by the usual two's-complement reinterpretation;
* a Rust `String` is modelled by its UTF-8 byte list; `String::from_utf8`
  becomes a byte-level UTF-8 validity check (`validUTF8`);
* the `Box<dyn Error>` error channel is the inductive `parser.Error`,
  whose extra variants `truncated` (an `std::io` unexpected-eof error from
  `byteorder` reads) and `invalidText` (a `FromUtf8Error`) model the two
  foreign error types that can be boxed into it;
* a Rust panic (out-of-bounds slice index) is the distinguished outcome
  `COut.fault`, kept separate from the typed error returns.
-/

namespace parser

/-- Header of a TZif file (`parser.rs`, `struct Header`). -/
structure Header where
  version : Nat
  num_gmt_flags : Nat
  num_standard_flags : Nat
  num_leap_seconds : Nat
  num_transitions : Nat
  num_local_time_types : Nat
  num_abbr_chars : Nat
  deriving DecidableEq, Repr

/-- A raw transition (`parser.rs`, `struct TransitionData`). -/
structure TransitionData where
  timestamp : Int
  local_time_type_index : Nat
  deriving DecidableEq, Repr

/-- A raw local time type record (`parser.rs`, `struct LocalTimeTypeData`). -/
structure LocalTimeTypeData where
  offset : Int
  is_dst : Nat
  name_offset : Nat
  deriving DecidableEq, Repr

/-- A raw leap second record (`parser.rs`, `struct LeapSecondData`). -/
structure LeapSecondData where
  timestamp : Int
  leap_second_count : Int
  deriving DecidableEq, Repr

/-- Size limits on structure counts (`parser.rs`, `struct Limits`). -/
structure Limits where
  max_transitions : Option Nat
  max_local_time_types : Option Nat
  max_abbreviation_chars : Option Nat
  max_leap_seconds : Option Nat
  deriving DecidableEq, Repr

/-- `Limits::none()`: no size limits. -/
def Limits.noLimits : Limits :=
  { max_transitions := Option.none
    max_local_time_types := Option.none
    max_abbreviation_chars := Option.none
    max_leap_seconds := Option.none }

/-- `Limits::sensible()`: the default limit profile. -/
def Limits.sensible : Limits :=
  { max_transitions := some 2000
    max_local_time_types := some 256
    max_abbreviation_chars := some 50
    max_leap_seconds := some 50 }

/-- Which structure a limit violation is about (`parser.rs`, `enum Structures`). -/
inductive Structures where
  | Transitions
  | LocalTimeTypes
  | LeapSeconds
  | GMTFlags
  | StandardFlags
  | TimezoneAbbrChars
  deriving DecidableEq, Repr

/-- The error channel of the pipeline. The first three variants are
`parser.rs`'s `enum Error`; `truncated` models the `std::io::Error`
(unexpected eof) produced by `byteorder` reads on a short buffer, and
`invalidText` models the `FromUtf8Error` from `String::from_utf8`; both of
those are boxed into the same `Box<dyn Error>` return channel. -/
inductive Error where
  | invalidMagicNumber
  | limitReached (structures : Structures) (intended_count : Nat) (limit : Nat)
  | noTransitions
  | truncated
  | invalidText
  deriving DecidableEq, Repr

/-- The closure `check` inside `Limits::verify`. -/
def check (structures : Structures) (intended_count : Nat) (limit : Option Nat) :
    Except Error Unit :=
  match limit with
  | some max => if intended_count > max then
      .error (.limitReached structures intended_count max)
    else .ok ()
  | Option.none => .ok ()

/-- `Limits::verify`: check the six header counts, in the source's order,
against the configured limits (`parser.rs` lines 149-171). Note that the
GMT-flag and standard-flag counts are checked against `max_local_time_types`. -/
def Limits.verify (self : Limits) (header : Header) : Except Error Unit :=
  match check .Transitions header.num_transitions self.max_transitions with
  | .error e => .error e
  | .ok _ =>
  match check .LocalTimeTypes header.num_local_time_types self.max_local_time_types with
  | .error e => .error e
  | .ok _ =>
  match check .LeapSeconds header.num_leap_seconds self.max_leap_seconds with
  | .error e => .error e
  | .ok _ =>
  match check .GMTFlags header.num_gmt_flags self.max_local_time_types with
  | .error e => .error e
  | .ok _ =>
  match check .StandardFlags header.num_standard_flags self.max_local_time_types with
  | .error e => .error e
  | .ok _ =>
  match check .TimezoneAbbrChars header.num_abbr_chars self.max_abbreviation_chars with
  | .error e => .error e
  | .ok _ => .ok ()

/-- The raw parsed structure of a zoneinfo file (`parser.rs`, `struct TZData`). -/
structure TZData where
  header : Header
  transitions : List TransitionData
  time_info : List LocalTimeTypeData
  leap_seconds : List LeapSecondData
  strings : List Nat
  standard_flags : List Nat
  gmt_flags : List Nat
  deriving DecidableEq, Repr

/-- Reinterpret an unsigned 32-bit value as a signed `i32`. -/
def toI32 (v : Nat) : Int :=
  if v < 2 ^ 31 then (v : Int) else (v : Int) - 2 ^ 32

/-- `cursor.read_u8()`: one byte, or an unexpected-eof error. -/
def readU8 : List Nat → Except Error (Nat × List Nat)
  | [] => .error .truncated
  | b :: rest => .ok (b, rest)

/-- `cursor.read_u32::<BigEndian>()`: four bytes big-endian, or eof. -/
def readU32BE : List Nat → Except Error (Nat × List Nat)
  | b0 :: b1 :: b2 :: b3 :: rest =>
      .ok (((b0 * 256 + b1) * 256 + b2) * 256 + b3, rest)
  | _ => .error .truncated

/-- `cursor.read_i32::<BigEndian>()`: four bytes big-endian as `i32`, or eof. -/
def readI32BE (buf : List Nat) : Except Error (Int × List Nat) :=
  match readU32BE buf with
  | .error e => .error e
  | .ok (v, rest) => .ok (toI32 v, rest)

/-- A `for _ in 0 .. count` loop of a fixed-size record reader. -/
def readN {α : Type} (r : List Nat → Except Error (α × List Nat)) :
    Nat → List Nat → Except Error (List α × List Nat)
  | 0, buf => .ok ([], buf)
  | n + 1, buf =>
    match r buf with
    | .error e => .error e
    | .ok (v, rest) =>
      match readN r n rest with
      | .error e => .error e
      | .ok (vs, rest2) => .ok (v :: vs, rest2)

/-- `Parser::read_magic_number`: `Read::read` fills up to 4 bytes of a
zero-initialised array (a short buffer leaves trailing zero bytes), then the
array is compared against `b"TZif"` (bytes 84, 90, 105, 102). -/
def read_magic_number (buf : List Nat) : Except Error (List Nat) :=
  if buf.take 4 ++ List.replicate (4 - (buf.take 4).length) 0 = [84, 90, 105, 102] then
    .ok (buf.drop 4)
  else
    .error .invalidMagicNumber

/-- `Parser::skip_initial_zeroes`: consume up to 15 bytes, never failing. -/
def skip_initial_zeroes (buf : List Nat) : List Nat :=
  buf.drop 15

/-- `Parser::read_header`: the version byte then six big-endian `u32` counts. -/
def read_header (buf : List Nat) : Except Error (Header × List Nat) :=
  match readU8 buf with
  | .error e => .error e
  | .ok (version, r1) =>
  match readU32BE r1 with
  | .error e => .error e
  | .ok (gmt, r2) =>
  match readU32BE r2 with
  | .error e => .error e
  | .ok (std, r3) =>
  match readU32BE r3 with
  | .error e => .error e
  | .ok (leap, r4) =>
  match readU32BE r4 with
  | .error e => .error e
  | .ok (transCount, r5) =>
  match readU32BE r5 with
  | .error e => .error e
  | .ok (ltt, r6) =>
  match readU32BE r6 with
  | .error e => .error e
  | .ok (abbr, r7) =>
    .ok (⟨version, gmt, std, leap, transCount, ltt, abbr⟩, r7)

/-- `Parser::read_transition_data`: `count` big-endian `i32` timestamps, then
`count` one-byte type indices, zipped into `TransitionData` records. -/
def read_transition_data (count : Nat) (buf : List Nat) :
    Except Error (List TransitionData × List Nat) :=
  match readN readI32BE count buf with
  | .error e => .error e
  | .ok (times, r1) =>
  match readN readU8 count r1 with
  | .error e => .error e
  | .ok (types, r2) =>
    .ok ((times.zip types).map (fun p => ⟨p.1, p.2⟩), r2)

/-- `Parser::read_octets`: `count` raw bytes. -/
def read_octets (count : Nat) (buf : List Nat) :
    Except Error (List Nat × List Nat) :=
  readN readU8 count buf

/-- One record of `Parser::read_local_time_type_data`:
`offset: i32, is_dst: u8, name_offset: u8`. -/
def readLTTRecord (buf : List Nat) :
    Except Error (LocalTimeTypeData × List Nat) :=
  match readI32BE buf with
  | .error e => .error e
  | .ok (offset, r1) =>
  match readU8 r1 with
  | .error e => .error e
  | .ok (is_dst, r2) =>
  match readU8 r2 with
  | .error e => .error e
  | .ok (name_offset, r3) => .ok (⟨offset, is_dst, name_offset⟩, r3)

/-- `Parser::read_local_time_type_data`: `count` six-byte records. -/
def read_local_time_type_data (count : Nat) (buf : List Nat) :
    Except Error (List LocalTimeTypeData × List Nat) :=
  readN readLTTRecord count buf

/-- One record of `Parser::read_leap_second_data`:
`timestamp: i32, leap_second_count: i32`. -/
def readLeapRecord (buf : List Nat) :
    Except Error (LeapSecondData × List Nat) :=
  match readI32BE buf with
  | .error e => .error e
  | .ok (timestamp, r1) =>
  match readI32BE r1 with
  | .error e => .error e
  | .ok (count, r2) => .ok (⟨timestamp, count⟩, r2)

/-- `Parser::read_leap_second_data`: `count` eight-byte records. -/
def read_leap_second_data (count : Nat) (buf : List Nat) :
    Except Error (List LeapSecondData × List Nat) :=
  readN readLeapRecord count buf

/-- `parser::parse` (`parser.rs` lines 367-391): magic, reserved padding,
header, limit check, then the five variable-length sections in file order. -/
def parse (buf : List Nat) (limits : Limits) : Except Error TZData :=
  match read_magic_number buf with
  | .error e => .error e
  | .ok r1 =>
  let r2 := skip_initial_zeroes r1
  match read_header r2 with
  | .error e => .error e
  | .ok (header, r3) =>
  match limits.verify header with
  | .error e => .error e
  | .ok _ =>
  match read_transition_data header.num_transitions r3 with
  | .error e => .error e
  | .ok (transitions, r4) =>
  match read_local_time_type_data header.num_local_time_types r4 with
  | .error e => .error e
  | .ok (time_info, r5) =>
  match read_octets header.num_abbr_chars r5 with
  | .error e => .error e
  | .ok (strings, r6) =>
  match read_leap_second_data header.num_leap_seconds r6 with
  | .error e => .error e
  | .ok (leap_seconds, r7) =>
  match read_octets header.num_standard_flags r7 with
  | .error e => .error e
  | .ok (standard_flags, r8) =>
  match read_octets header.num_gmt_flags r8 with
  | .error e => .error e
  | .ok (gmt_flags, _) =>
    .ok ⟨header, transitions, time_info, leap_seconds, strings, standard_flags, gmt_flags⟩

end parser

/-! The cooking layer (`src/lib.rs`). -/

/-- The classification of a local time type (the `datetime` crate's
`TimeType`). -/
inductive TimeType where
  | Standard
  | Wall
  | UTC
  deriving DecidableEq, Repr

/-- The `datetime` crate's `FixedTimespan` (name modelled by its UTF-8 bytes). -/
structure FixedTimespan where
  offset : Int
  is_dst : Bool
  name : List Nat
  deriving DecidableEq, Repr

/-- A cooked local time type (`lib.rs`, `struct LocalTimeType`). -/
structure LocalTimeType where
  name : List Nat
  offset : Int
  is_dst : Bool
  transition_type : TimeType
  deriving DecidableEq, Repr

instance : Inhabited LocalTimeType :=
  ⟨⟨[], 0, false, TimeType.Wall⟩⟩

/-- `LocalTimeType::to_fixed_timespan`. -/
def LocalTimeType.to_fixed_timespan (self : LocalTimeType) : FixedTimespan :=
  { offset := self.offset, is_dst := self.is_dst, name := self.name }

/-- The `datetime` crate's `OwnedFixedTimespanSet`: the base regime plus the
forward transitions. -/
structure OwnedFixedTimespanSet where
  first : FixedTimespan
  rest : List (Int × FixedTimespan)
  deriving DecidableEq, Repr

/-- The `datetime` crate's `OwnedTimeZone`. -/
structure OwnedTimeZone where
  name : Option (List Nat)
  fixed_timespans : OwnedFixedTimespanSet
  deriving DecidableEq, Repr

/-- A cooked leap second (`lib.rs`, `struct LeapSecond`). -/
structure LeapSecond where
  timestamp : Int
  leap_second_count : Int
  deriving DecidableEq, Repr

/-- The cooked model (`lib.rs`, `struct TZData`). -/
structure TZData where
  time_zone : OwnedTimeZone
  leap_seconds : List LeapSecond
  deriving DecidableEq, Repr

/-- `flags_to_transition_type` (`lib.rs` lines 207-213). -/
def flags_to_transition_type (standard : Bool) (gmt : Bool) : TimeType :=
  match standard, gmt with
  | _, true => TimeType.UTC
  | true, _ => TimeType.Standard
  | false, false => TimeType.Wall

/-- Whether a byte is a UTF-8 continuation byte (`0x80 ..= 0xBF`). -/
def isCont (b : Nat) : Bool :=
  128 ≤ b && b ≤ 191

/-- UTF-8 validity of a byte sequence, as checked by `String::from_utf8`
(the standard well-formedness conditions of RFC 3629: surrogate code points
and values above `U+10FFFF` excluded, shortest-form encodings only). -/
def validUTF8 : List Nat → Bool
  | [] => true
  | b :: rest =>
    if b ≤ 127 then
      validUTF8 rest
    else if 194 ≤ b && b ≤ 223 then
      match rest with
      | c1 :: rest1 => isCont c1 && validUTF8 rest1
      | [] => false
    else if b = 224 then
      match rest with
      | c1 :: c2 :: rest2 => (160 ≤ c1 && c1 ≤ 191) && isCont c2 && validUTF8 rest2
      | _ => false
    else if (225 ≤ b && b ≤ 236) || (238 ≤ b && b ≤ 239) then
      match rest with
      | c1 :: c2 :: rest2 => isCont c1 && isCont c2 && validUTF8 rest2
      | _ => false
    else if b = 237 then
      match rest with
      | c1 :: c2 :: rest2 => (128 ≤ c1 && c1 ≤ 159) && isCont c2 && validUTF8 rest2
      | _ => false
    else if b = 240 then
      match rest with
      | c1 :: c2 :: c3 :: rest3 =>
          (144 ≤ c1 && c1 ≤ 191) && isCont c2 && isCont c3 && validUTF8 rest3
      | _ => false
    else if 241 ≤ b && b ≤ 243 then
      match rest with
      | c1 :: c2 :: c3 :: rest3 =>
          isCont c1 && isCont c2 && isCont c3 && validUTF8 rest3
      | _ => false
    else if b = 244 then
      match rest with
      | c1 :: c2 :: c3 :: rest3 =>
          (128 ≤ c1 && c1 ≤ 143) && isCont c2 && isCont c3 && validUTF8 rest3
      | _ => false
    else false

/-- Name extraction from the abbreviation pool (`lib.rs` lines 129-133):
`tz.strings.iter().cloned().skip(offset).take_while(|&c| c != 0).collect()`. -/
def extractName (pool : List Nat) (offset : Nat) : List Nat :=
  (pool.drop offset).takeWhile (fun c => c != 0)

/-- Outcome of the cooking layer. `ok`/`err` are the two sides of the Rust
`Result`; `fault` is a Rust panic (an out-of-bounds slice index), which is
not a value the function returns. -/
inductive COut (α : Type) where
  | ok (a : α)
  | err (e : parser.Error)
  | fault
  deriving DecidableEq, Repr

/-- The body of `cook`'s first loop at index `i` for raw record `d`
(`lib.rs` lines 124-147), assuming the extracted name is valid UTF-8. -/
def mkLTT (tz : parser.TZData) (i : Nat) (d : parser.LocalTimeTypeData) :
    LocalTimeType :=
  { name := extractName tz.strings d.name_offset
    offset := d.offset
    is_dst := d.is_dst != 0
    transition_type :=
      flags_to_transition_type
        (((tz.standard_flags.get? i).getD 0) != 0)
        (((tz.gmt_flags.get? i).getD 0) != 0) }

/-- `cook`'s first loop: `for i in 0 .. num_local_time_types` build a
`LocalTimeType` from `tz.time_info[i]` (an out-of-range index is a panic),
failing with a `FromUtf8Error` if the extracted name is not valid UTF-8.
The list argument walks `tz.time_info` in lockstep with the index `i`. -/
def build_local_time_types (tz : parser.TZData) :
    Nat → Nat → List parser.LocalTimeTypeData → COut (List LocalTimeType)
  | _, 0, _ => .ok []
  | _, _ + 1, [] => .fault
  | i, n + 1, d :: ds =>
    if validUTF8 (extractName tz.strings d.name_offset) then
      match build_local_time_types tz (i + 1) n ds with
      | .ok rest => .ok (mkLTT tz i d :: rest)
      | r => r
    else .err .invalidText

/-- `cook`'s second loop (`lib.rs` lines 150-157): for `i` in
`0 .. num_transitions`, pair `tz.transitions[i].timestamp` with the resolved
local time type `local_time_types[t.local_time_type_index]`; either index
being out of range is a panic. The list argument walks `tz.transitions` in
lockstep with the loop index. -/
def link_transitions (ltts : List LocalTimeType) :
    Nat → List parser.TransitionData → COut (List (Int × FixedTimespan))
  | 0, _ => .ok []
  | _ + 1, [] => .fault
  | n + 1, t :: ts =>
    match ltts.get? t.local_time_type_index with
    | Option.none => .fault
    | some ltt =>
      match link_transitions ltts n ts with
      | .ok rest => .ok ((t.timestamp, ltt.to_fixed_timespan) :: rest)
      | r => r

/-- `cook` (`lib.rs` lines 119-199): build the catalog, link the transitions,
copy the leap seconds, then either take `local_time_types[0]` as the base
regime (no transitions) or split off the first transition as the base. -/
def cook (tz : parser.TZData) : COut TZData :=
  match build_local_time_types tz 0 tz.header.num_local_time_types tz.time_info with
  | .fault => .fault
  | .err e => .err e
  | .ok local_time_types =>
  match link_transitions local_time_types tz.header.num_transitions tz.transitions with
  | .fault => .fault
  | .err e => .err e
  | .ok transitions =>
  let leap_seconds := tz.leap_seconds.map (fun ls => LeapSecond.mk ls.timestamp ls.leap_second_count)
  match transitions with
  | [] =>
    match local_time_types.get? 0 with
    | Option.none => .fault
    | some l0 =>
      .ok ⟨⟨Option.none, ⟨l0.to_fixed_timespan, []⟩⟩, leap_seconds⟩
  | first :: rest =>
      .ok ⟨⟨Option.none, ⟨first.2, rest⟩⟩, leap_seconds⟩

/-! Helper definitions and lemmas for the limit-checking claims. -/

instance {ε α : Type} [DecidableEq ε] [DecidableEq α] : DecidableEq (Except ε α) :=
  fun x y =>
    match x, y with
    | .ok a, .ok b =>
      if h : a = b then isTrue (by rw [h]) else isFalse (by intro hh; injection hh; contradiction)
    | .error a, .error b =>
      if h : a = b then isTrue (by rw [h]) else isFalse (by intro hh; injection hh; contradiction)
    | .ok _, .error _ => isFalse (fun hh => Except.noConfusion hh)
    | .error _, .ok _ => isFalse (fun hh => Except.noConfusion hh)

/-- Whether a count is within an optional limit (`≤ max`, or the limit unset). -/
def withinLimit (count : Nat) (limit : Option Nat) : Bool :=
  match limit with
  | some max => count ≤ max
  | Option.none => true

lemma check_ok_iff (s : parser.Structures) (c : Nat) (lim : Option Nat) :
    parser.check s c lim = .ok () ↔ withinLimit c lim = true := by
  cases lim with
  | none => simp [parser.check, withinLimit]
  | some m =>
    simp only [parser.check, withinLimit, gt_iff_lt, decide_eq_true_eq]
    split_ifs with hlt
    · exact iff_of_false (by simp) (by omega)
    · exact iff_of_true rfl (by omega)

lemma verify_ok_iff (l : parser.Limits) (h : parser.Header) :
    l.verify h = .ok () ↔
      (withinLimit h.num_transitions l.max_transitions = true ∧
       withinLimit h.num_local_time_types l.max_local_time_types = true ∧
       withinLimit h.num_leap_seconds l.max_leap_seconds = true ∧
       withinLimit h.num_gmt_flags l.max_local_time_types = true ∧
       withinLimit h.num_standard_flags l.max_local_time_types = true ∧
       withinLimit h.num_abbr_chars l.max_abbreviation_chars = true) := by
  rw [← check_ok_iff .Transitions h.num_transitions l.max_transitions,
      ← check_ok_iff .LocalTimeTypes h.num_local_time_types l.max_local_time_types,
      ← check_ok_iff .LeapSeconds h.num_leap_seconds l.max_leap_seconds,
      ← check_ok_iff .GMTFlags h.num_gmt_flags l.max_local_time_types,
      ← check_ok_iff .StandardFlags h.num_standard_flags l.max_local_time_types,
      ← check_ok_iff .TimezoneAbbrChars h.num_abbr_chars l.max_abbreviation_chars]
  unfold parser.Limits.verify
  cases hc1 : parser.check .Transitions h.num_transitions l.max_transitions with
  | error e => simp
  | ok u =>
  cases u
  cases hc2 : parser.check .LocalTimeTypes h.num_local_time_types l.max_local_time_types with
  | error e => simp
  | ok u =>
  cases u
  cases hc3 : parser.check .LeapSeconds h.num_leap_seconds l.max_leap_seconds with
  | error e => simp
  | ok u =>
  cases u
  cases hc4 : parser.check .GMTFlags h.num_gmt_flags l.max_local_time_types with
  | error e => simp
  | ok u =>
  cases u
  cases hc5 : parser.check .StandardFlags h.num_standard_flags l.max_local_time_types with
  | error e => simp
  | ok u =>
  cases u
  cases hc6 : parser.check .TimezoneAbbrChars h.num_abbr_chars l.max_abbreviation_chars with
  | error e => simp
  | ok u =>
  cases u
  simp

/-- The ordered list of (structure, count, limit) triples checked by
`Limits::verify`, in the source's checking order. -/
def checkItems (l : parser.Limits) (h : parser.Header) :
    List (parser.Structures × Nat × Option Nat) :=
  [(.Transitions, h.num_transitions, l.max_transitions),
   (.LocalTimeTypes, h.num_local_time_types, l.max_local_time_types),
   (.LeapSeconds, h.num_leap_seconds, l.max_leap_seconds),
   (.GMTFlags, h.num_gmt_flags, l.max_local_time_types),
   (.StandardFlags, h.num_standard_flags, l.max_local_time_types),
   (.TimezoneAbbrChars, h.num_abbr_chars, l.max_abbreviation_chars)]

/-- Whether a single (structure, count, limit) triple is violated, yielding
the violation report. -/
def violOf (x : parser.Structures × Nat × Option Nat) :
    Option (parser.Structures × Nat × Nat) :=
  match x.2.2 with
  | some max => if x.2.1 > max then some (x.1, x.2.1, max) else Option.none
  | Option.none => Option.none

/-- Following the claim's words (not the source): the first violated limit in
the fixed checking order, with the offending count and the limit value. -/
def specFirstViolation (l : parser.Limits) (h : parser.Header) :
    Option (parser.Structures × Nat × Nat) :=
  (checkItems l h).findSome? violOf

/-- Run a sequence of limit checks in order, stopping at the first error
(the shape of the body of `Limits::verify`). -/
def runChecks : List (parser.Structures × Nat × Option Nat) → Except parser.Error Unit
  | [] => .ok ()
  | (s, c, lim) :: rest =>
    match parser.check s c lim with
    | .error e => .error e
    | .ok _ => runChecks rest

lemma runChecks_findSome (items : List (parser.Structures × Nat × Option Nat)) :
    runChecks items =
      match items.findSome? violOf with
      | Option.none => .ok ()
      | some (s, c, m) => .error (.limitReached s c m) := by
  induction items with
  | nil => rfl
  | cons x rest ih =>
    obtain ⟨s, c, lim⟩ := x
    cases lim with
    | none => simpa [runChecks, parser.check, violOf, List.findSome?_cons] using ih
    | some m =>
      by_cases hc : c > m
      · simp [runChecks, parser.check, violOf, List.findSome?_cons, hc]
      · simpa [runChecks, parser.check, violOf, List.findSome?_cons, hc] using ih

/-- C5: flags_to_transition_type implements the stated precedence for every
(standard, utc) boolean pair: utc=true yields UTC regardless of standard;
utc=false with standard=true yields Standard; utc=false with standard=false
yields Wall. -/
theorem flags_precedence :
    (∀ standard : Bool, flags_to_transition_type standard true = TimeType.UTC) ∧
    flags_to_transition_type true false = TimeType.Standard ∧
    flags_to_transition_type false false = TimeType.Wall := by
  refine ⟨fun standard => ?_, rfl, rfl⟩
  cases standard <;> rfl

/-- C3: on a raw TZData with an empty transition list and an empty
local-time-type catalog, `cook` does not return the typed
NoTransitions/NoLocalTimeTypes error the spec requires: it performs an
out-of-bounds access on `local_time_types[0]` (a panic, modelled as
`COut.fault`), and in particular returns no typed error value at all. -/
theorem cook_empty_catalog_fault :
    cook ⟨⟨0, 0, 0, 0, 0, 0, 0⟩, [], [], [], [], [], []⟩ = COut.fault := rfl

/-- C4 counterexample: the claim says the InvalidMagicNumber error reports
(carries) the four bytes actually read, but `parser.rs`'s variant is a unit
value: two buffers whose first four bytes differ produce the very same error
value, so the error cannot report the bytes that were read. -/
theorem parse_magic_no_payload_cex :
    parser.parse [1, 2, 3, 4] parser.Limits.sensible =
      parser.parse [9, 8, 7, 6] parser.Limits.sensible ∧
    parser.parse [1, 2, 3, 4] parser.Limits.sensible =
      .error .invalidMagicNumber := ⟨rfl, rfl⟩

/-- C4 (amended): for every input buffer whose first four bytes (zero-padded
if the buffer is shorter) are not exactly the signature "TZif", parse fails
with the payload-free InvalidMagicNumber error. -/
theorem parse_bad_magic (buf : List Nat) (limits : parser.Limits)
    (h : buf.take 4 ++ List.replicate (4 - (buf.take 4).length) 0 ≠ [84, 90, 105, 102]) :
    parser.parse buf limits = .error .invalidMagicNumber := by
  unfold parser.parse parser.read_magic_number
  rw [if_neg h]

/-- Witness for parse_bad_magic at the concrete buffer [1, 2, 3, 4]. -/
theorem parse_bad_magic_witness :
    parser.parse [1, 2, 3, 4] parser.Limits.sensible = .error .invalidMagicNumber :=
  parse_bad_magic [1, 2, 3, 4] parser.Limits.sensible (by decide)

/-- C2 counterexample: the claim says shrinking any single exceeded count
down to its limit, leaving the rest unchanged, flips a failing verify to
success; with two counts over their limits (5000 transitions and 500 local
time types under the sensible profile) shrinking only the transition count
to its limit 2000 leaves verify failing. -/
theorem verify_shrink_cex :
    parser.Limits.sensible.verify ⟨0, 0, 0, 0, 5000, 500, 0⟩ =
      .error (.limitReached .Transitions 5000 2000) ∧
    5000 > 2000 ∧
    parser.Limits.sensible.verify ⟨0, 0, 0, 0, 2000, 500, 0⟩ =
      .error (.limitReached .LocalTimeTypes 500 256) := by
  decide

/-- C2 (amended): verify returns Ok iff each of the six header counts is at
most its corresponding configured limit or that limit is unset (the two
flag counts are checked against max_local_time_types); and shrinking a
single exceeded count down to its limit flips a failing verify to success
provided every other count is within its corresponding limit. -/
theorem verify_iff_and_shrink :
    (∀ (l : parser.Limits) (h : parser.Header),
      l.verify h = .ok () ↔
        (withinLimit h.num_transitions l.max_transitions = true ∧
         withinLimit h.num_local_time_types l.max_local_time_types = true ∧
         withinLimit h.num_leap_seconds l.max_leap_seconds = true ∧
         withinLimit h.num_gmt_flags l.max_local_time_types = true ∧
         withinLimit h.num_standard_flags l.max_local_time_types = true ∧
         withinLimit h.num_abbr_chars l.max_abbreviation_chars = true)) ∧
    (∀ (l : parser.Limits) (h : parser.Header) (m : Nat),
      l.verify h ≠ .ok () → l.max_transitions = some m →
      withinLimit h.num_local_time_types l.max_local_time_types = true →
      withinLimit h.num_leap_seconds l.max_leap_seconds = true →
      withinLimit h.num_gmt_flags l.max_local_time_types = true →
      withinLimit h.num_standard_flags l.max_local_time_types = true →
      withinLimit h.num_abbr_chars l.max_abbreviation_chars = true →
      l.verify { h with num_transitions := m } = .ok ()) ∧
    (∀ (l : parser.Limits) (h : parser.Header) (m : Nat),
      l.verify h ≠ .ok () → l.max_local_time_types = some m →
      withinLimit h.num_transitions l.max_transitions = true →
      withinLimit h.num_leap_seconds l.max_leap_seconds = true →
      withinLimit h.num_gmt_flags l.max_local_time_types = true →
      withinLimit h.num_standard_flags l.max_local_time_types = true →
      withinLimit h.num_abbr_chars l.max_abbreviation_chars = true →
      l.verify { h with num_local_time_types := m } = .ok ()) ∧
    (∀ (l : parser.Limits) (h : parser.Header) (m : Nat),
      l.verify h ≠ .ok () → l.max_leap_seconds = some m →
      withinLimit h.num_transitions l.max_transitions = true →
      withinLimit h.num_local_time_types l.max_local_time_types = true →
      withinLimit h.num_gmt_flags l.max_local_time_types = true →
      withinLimit h.num_standard_flags l.max_local_time_types = true →
      withinLimit h.num_abbr_chars l.max_abbreviation_chars = true →
      l.verify { h with num_leap_seconds := m } = .ok ()) ∧
    (∀ (l : parser.Limits) (h : parser.Header) (m : Nat),
      l.verify h ≠ .ok () → l.max_local_time_types = some m →
      withinLimit h.num_transitions l.max_transitions = true →
      withinLimit h.num_local_time_types l.max_local_time_types = true →
      withinLimit h.num_leap_seconds l.max_leap_seconds = true →
      withinLimit h.num_standard_flags l.max_local_time_types = true →
      withinLimit h.num_abbr_chars l.max_abbreviation_chars = true →
      l.verify { h with num_gmt_flags := m } = .ok ()) ∧
    (∀ (l : parser.Limits) (h : parser.Header) (m : Nat),
      l.verify h ≠ .ok () → l.max_local_time_types = some m →
      withinLimit h.num_transitions l.max_transitions = true →
      withinLimit h.num_local_time_types l.max_local_time_types = true →
      withinLimit h.num_leap_seconds l.max_leap_seconds = true →
      withinLimit h.num_gmt_flags l.max_local_time_types = true →
      withinLimit h.num_abbr_chars l.max_abbreviation_chars = true →
      l.verify { h with num_standard_flags := m } = .ok ()) ∧
    (∀ (l : parser.Limits) (h : parser.Header) (m : Nat),
      l.verify h ≠ .ok () → l.max_abbreviation_chars = some m →
      withinLimit h.num_transitions l.max_transitions = true →
      withinLimit h.num_local_time_types l.max_local_time_types = true →
      withinLimit h.num_leap_seconds l.max_leap_seconds = true →
      withinLimit h.num_gmt_flags l.max_local_time_types = true →
      withinLimit h.num_standard_flags l.max_local_time_types = true →
      l.verify { h with num_abbr_chars := m } = .ok ()) := by
  refine ⟨verify_ok_iff, ?_, ?_, ?_, ?_, ?_, ?_⟩ <;>
    · intro l h m hfail hm h1 h2 h3 h4 h5
      rw [verify_ok_iff]
      refine ⟨?_, ?_, ?_, ?_, ?_, ?_⟩ <;>
        first
          | exact h1
          | exact h2
          | exact h3
          | exact h4
          | exact h5
          | (rw [hm]; simp [withinLimit])

/-- Witness for verify_iff_and_shrink: the iff at a concrete in-limits
header, and the transition-count shrink at a concretely failing header. -/
theorem verify_iff_and_shrink_witness :
    parser.Limits.sensible.verify ⟨0, 0, 0, 0, 1000, 10, 10⟩ = .ok () ∧
    parser.Limits.sensible.verify ⟨0, 0, 0, 0, 2000, 10, 10⟩ = .ok () := by
  constructor
  · exact (verify_iff_and_shrink.1 parser.Limits.sensible ⟨0, 0, 0, 0, 1000, 10, 10⟩).mpr
      (by decide)
  · exact verify_iff_and_shrink.2.1 parser.Limits.sensible ⟨0, 0, 0, 0, 5000, 10, 10⟩ 2000
      (by decide) rfl (by decide) (by decide) (by decide) (by decide) (by decide)

/-- C7: verify reports the first violated limit in the fixed checking order
(transitions, local-time-types, leap-seconds, gmt-flags, standard-flags,
abbreviation-bytes); in particular a header with num_transitions = 5000
under the sensible profile fails with LimitReached naming Transitions with
requested count 5000 and limit 2000. -/
theorem verify_first_violation :
    (∀ (l : parser.Limits) (h : parser.Header),
      l.verify h =
        match specFirstViolation l h with
        | Option.none => .ok ()
        | some (s, c, m) => .error (.limitReached s c m)) ∧
    parser.Limits.sensible.verify ⟨0, 0, 0, 0, 5000, 0, 0⟩ =
      .error (.limitReached .Transitions 5000 2000) := by
  refine ⟨fun l h => ?_, by decide⟩
  have hrc : l.verify h = runChecks (checkItems l h) := rfl
  rw [hrc, runChecks_findSome]
  rfl

/-! Helper lemmas for flag padding (C6) and name extraction (C9). -/

/-- Pad a flag array with zero bytes up to length `n`. -/
def padFlags (xs : List Nat) (n : Nat) : List Nat :=
  xs ++ List.replicate (n - xs.length) 0

lemma replicate_get?_getD (n i : Nat) :
    (((List.replicate n (0 : Nat)).get? i).getD 0) = 0 := by
  induction n generalizing i with
  | zero => rfl
  | succ n ih =>
    cases i with
    | zero => rfl
    | succ i => exact ih i

lemma append_zeros_get?_getD (xs : List Nat) (k i : Nat) :
    (((xs ++ List.replicate k 0).get? i).getD 0) = ((xs.get? i).getD 0) := by
  induction xs generalizing i with
  | nil => simp only [List.nil_append]; exact replicate_get?_getD k i
  | cons x xs ih =>
    cases i with
    | zero => rfl
    | succ i => simpa using ih i

lemma build_congr (tz tz' : parser.TZData)
    (hs : tz'.strings = tz.strings)
    (hstd : ∀ i, ((tz'.standard_flags.get? i).getD 0) = ((tz.standard_flags.get? i).getD 0))
    (hgmt : ∀ i, ((tz'.gmt_flags.get? i).getD 0) = ((tz.gmt_flags.get? i).getD 0)) :
    ∀ n i ds, build_local_time_types tz' i n ds = build_local_time_types tz i n ds := by
  intro n
  induction n with
  | zero => intro i ds; rfl
  | succ n ih =>
    intro i ds
    cases ds with
    | nil => rfl
    | cons d ds =>
      have hname : extractName tz'.strings d.name_offset
          = extractName tz.strings d.name_offset := by rw [hs]
      have hmk : mkLTT tz' i d = mkLTT tz i d := by
        unfold mkLTT
        rw [hs, hstd i, hgmt i]
      simp only [build_local_time_types, hname, hmk, ih]

/-- C6: during cook, a local-time-type index at or beyond the length of the
standard_flags (resp. gmt_flags) array reads the flag as false rather than
failing, so cook's result equals its result on the same input with both flag
arrays padded with zero bytes up to the number of local time types. -/
theorem cook_pad_flags (tz : parser.TZData) :
    cook tz = cook { tz with
      standard_flags := padFlags tz.standard_flags tz.header.num_local_time_types,
      gmt_flags := padFlags tz.gmt_flags tz.header.num_local_time_types } := by
  obtain ⟨hd, ts, ti, ls, st, sf, gf⟩ := tz
  have hb := build_congr
    ⟨hd, ts, ti, ls, st, sf, gf⟩
    ⟨hd, ts, ti, ls, st, padFlags sf hd.num_local_time_types,
      padFlags gf hd.num_local_time_types⟩
    rfl
    (fun i => append_zeros_get?_getD sf (hd.num_local_time_types - sf.length) i)
    (fun i => append_zeros_get?_getD gf (hd.num_local_time_types - gf.length) i)
  simp only [cook, hb]

lemma takeWhile_take_succ (q : Nat → Bool) (xs : List Nat) :
    (xs.take ((xs.takeWhile q).length + 1)).takeWhile q = xs.takeWhile q := by
  induction xs with
  | nil => rfl
  | cons x xs ih =>
    by_cases hx : q x
    · simp [List.takeWhile_cons, hx, List.take_succ_cons, ih]
    · simp [List.takeWhile_cons, hx]

/-- C9: name extraction is idempotent (re-extracting from an extracted name
yields the same bytes); it is determined by the pool bytes from the offset
up to and including the first NUL there (two pools agreeing on that segment
yield the same name); and if the pool holds no NUL at or after the offset,
the name is simply the remaining bytes, with no error. -/
theorem extract_name_props :
    (∀ (pool : List Nat) (off : Nat),
      extractName (extractName pool off) 0 = extractName pool off) ∧
    (∀ (p1 p2 : List Nat) (off : Nat),
      (p1.drop off).take (((p1.drop off).takeWhile (fun c => c != 0)).length + 1) =
        (p2.drop off).take (((p2.drop off).takeWhile (fun c => c != 0)).length + 1) →
      extractName p1 off = extractName p2 off) ∧
    (∀ (pool : List Nat) (off : Nat),
      (∀ b ∈ pool.drop off, b ≠ 0) → extractName pool off = pool.drop off) := by
  refine ⟨fun pool off => ?_, fun p1 p2 off hagree => ?_, fun pool off hnz => ?_⟩
  · simp only [extractName, List.drop_zero]
    exact List.takeWhile_idem
  · unfold extractName
    rw [← takeWhile_take_succ (fun c => c != 0) (p1.drop off), hagree,
      takeWhile_take_succ]
  · unfold extractName
    exact List.takeWhile_eq_self_iff.mpr (fun b hb => by
      simpa using hnz b hb)

/-- Witness for extract_name_props: the no-NUL clause at a concrete pool. -/
theorem extract_name_props_witness : extractName [1, 2, 3] 1 = [2, 3] :=
  extract_name_props.2.2 [1, 2, 3] 1 (by decide)

/-! Helper lemmas for the cooking round trip (C1) and transition linking (C10). -/

/-- The pure image of `cook`'s first loop starting at index `i`. -/
def lttList (tz : parser.TZData) : Nat → List parser.LocalTimeTypeData → List LocalTimeType
  | _, [] => []
  | i, d :: ds => mkLTT tz i d :: lttList tz (i + 1) ds

/-- The pure image of `cook`'s second loop. -/
def linkPure (ltts : List LocalTimeType) (ts : List parser.TransitionData) :
    List (Int × FixedTimespan) :=
  ts.map (fun t =>
    (t.timestamp, ((ltts.get? t.local_time_type_index).getD default).to_fixed_timespan))

lemma lttList_length (tz : parser.TZData) :
    ∀ (ds : List parser.LocalTimeTypeData) (i : Nat), (lttList tz i ds).length = ds.length := by
  intro ds
  induction ds with
  | nil => intro i; rfl
  | cons d ds ih => intro i; simp [lttList, ih]

lemma lttList_get? (tz : parser.TZData) :
    ∀ (ds : List parser.LocalTimeTypeData) (i k : Nat),
      (lttList tz i ds).get? k = (ds.get? k).map (fun d => mkLTT tz (i + k) d) := by
  intro ds
  induction ds with
  | nil => intro i k; simp [lttList]
  | cons d ds ih =>
    intro i k
    cases k with
    | zero => simp [lttList]
    | succ k =>
      simp only [lttList, List.get?_cons_succ, ih (i + 1) k]
      have : i + 1 + k = i + (k + 1) := by omega
      rw [this]

lemma build_ok (tz : parser.TZData) (ds : List parser.LocalTimeTypeData)
    (h : ∀ d ∈ ds, validUTF8 (extractName tz.strings d.name_offset) = true) :
    ∀ i, build_local_time_types tz i ds.length ds = .ok (lttList tz i ds) := by
  induction ds with
  | nil => intro i; rfl
  | cons d ds ih =>
    intro i
    have hd : validUTF8 (extractName tz.strings d.name_offset) = true :=
      h d (List.mem_cons_self d ds)
    have hrest : ∀ d' ∈ ds, validUTF8 (extractName tz.strings d'.name_offset) = true :=
      fun d' hd' => h d' (List.mem_cons_of_mem d hd')
    simp only [List.length_cons, build_local_time_types, hd, if_true, ih hrest (i + 1), lttList]

lemma link_ok (ltts : List LocalTimeType) :
    ∀ (ts : List parser.TransitionData),
      (∀ t ∈ ts, t.local_time_type_index < ltts.length) →
      link_transitions ltts ts.length ts = .ok (linkPure ltts ts) := by
  intro ts
  induction ts with
  | nil => intro _; rfl
  | cons t ts ih =>
    intro h
    have ht : t.local_time_type_index < ltts.length := h t (List.mem_cons_self t ts)
    cases hg : ltts.get? t.local_time_type_index with
    | none =>
      exact absurd (List.get?_eq_none.mp hg) (by omega)
    | some ltt =>
      have hrest := ih (fun t' ht' => h t' (List.mem_cons_of_mem t ht'))
      simp only [List.length_cons, link_transitions, hg, hrest, linkPure, List.map_cons]
      rfl

lemma link_fault (ltts : List LocalTimeType) :
    ∀ (ts : List parser.TransitionData),
      (∃ t ∈ ts, ltts.length ≤ t.local_time_type_index) →
      link_transitions ltts ts.length ts = .fault := by
  intro ts
  induction ts with
  | nil => rintro ⟨t, ht, _⟩; cases ht
  | cons t ts ih =>
    rintro ⟨t', ht'mem, ht'⟩
    rcases List.mem_cons.mp ht'mem with heq | htail
    · subst heq
      have hg : ltts.get? t'.local_time_type_index = Option.none :=
        List.get?_eq_none.mpr ht'
      simp only [List.length_cons, link_transitions, hg]
    · cases hg : ltts.get? t.local_time_type_index with
      | none => simp only [List.length_cons, link_transitions, hg]
      | some ltt =>
        simp only [List.length_cons, link_transitions, hg, ih ⟨t', htail, ht'⟩]

/-- C1: for a raw TZData derived from M > 0 transitions and a matching
local-time-type catalog (header counts equal to the vector lengths, every
transition index in range, every name valid UTF-8), cook returns Ok with
exactly M - 1 forward transitions in rest, and first is the resolved local
time type of the first raw transition (its timestamp discarded); for M = 0
with N > 0 local time types, cook returns Ok with 0 forward transitions and
a base regime resolved from local-time-type index 0. -/
theorem cook_round_trip (tz : parser.TZData)
    (hT : tz.header.num_transitions = tz.transitions.length)
    (hN : tz.header.num_local_time_types = tz.time_info.length)
    (hidx : ∀ t ∈ tz.transitions, t.local_time_type_index < tz.header.num_local_time_types)
    (hnames : ∀ d ∈ tz.time_info, validUTF8 (extractName tz.strings d.name_offset) = true) :
    (∀ (t0 : parser.TransitionData) (ts : List parser.TransitionData),
      tz.transitions = t0 :: ts →
      ∃ (out : TZData) (d0 : parser.LocalTimeTypeData),
        cook tz = .ok out ∧
        out.time_zone.fixed_timespans.rest.length = tz.transitions.length - 1 ∧
        tz.time_info.get? t0.local_time_type_index = some d0 ∧
        out.time_zone.fixed_timespans.first =
          (mkLTT tz t0.local_time_type_index d0).to_fixed_timespan) ∧
    (tz.transitions = [] → 0 < tz.header.num_local_time_types →
      ∃ (out : TZData) (d0 : parser.LocalTimeTypeData),
        cook tz = .ok out ∧
        out.time_zone.fixed_timespans.rest = [] ∧
        tz.time_info.get? 0 = some d0 ∧
        out.time_zone.fixed_timespans.first = (mkLTT tz 0 d0).to_fixed_timespan) := by
  have hbuild : build_local_time_types tz 0 tz.header.num_local_time_types tz.time_info
      = .ok (lttList tz 0 tz.time_info) := by
    rw [hN]; exact build_ok tz tz.time_info hnames 0
  have hlen : (lttList tz 0 tz.time_info).length = tz.time_info.length :=
    lttList_length tz tz.time_info 0
  have hidx' : ∀ t ∈ tz.transitions,
      t.local_time_type_index < (lttList tz 0 tz.time_info).length := by
    intro t ht; rw [hlen, ← hN]; exact hidx t ht
  have hlink : link_transitions (lttList tz 0 tz.time_info)
      tz.header.num_transitions tz.transitions
      = .ok (linkPure (lttList tz 0 tz.time_info) tz.transitions) := by
    rw [hT]; exact link_ok _ _ hidx'
  constructor
  · intro t0 ts htr
    have hmem : t0 ∈ tz.transitions := by rw [htr]; exact List.mem_cons_self t0 ts
    have hk : t0.local_time_type_index < tz.time_info.length := by
      rw [← hN]; exact hidx t0 hmem
    obtain ⟨d0, hd0⟩ : ∃ d0, tz.time_info.get? t0.local_time_type_index = some d0 := by
      cases hg : tz.time_info.get? t0.local_time_type_index with
      | none => exact absurd (List.get?_eq_none.mp hg) (by omega)
      | some d0 => exact ⟨d0, rfl⟩
    have hget : (lttList tz 0 tz.time_info).get? t0.local_time_type_index
        = some (mkLTT tz t0.local_time_type_index d0) := by
      rw [lttList_get?, hd0]; simp
    have hcook : cook tz = .ok
        ⟨⟨Option.none, ⟨(mkLTT tz t0.local_time_type_index d0).to_fixed_timespan,
            linkPure (lttList tz 0 tz.time_info) ts⟩⟩,
          tz.leap_seconds.map (fun ls => LeapSecond.mk ls.timestamp ls.leap_second_count)⟩ := by
      simp only [cook, hbuild, hlink]
      rw [htr]
      simp only [linkPure, List.map_cons, hget, Option.getD_some]
    refine ⟨_, d0, hcook, ?_, hd0, rfl⟩
    simp [htr, linkPure]
  · intro htr hpos
    obtain ⟨d0, hd0⟩ : ∃ d0, tz.time_info.get? 0 = some d0 := by
      cases hg : tz.time_info.get? 0 with
      | none =>
        have := List.get?_eq_none.mp hg
        rw [hN] at hpos
        exact absurd this (by omega)
      | some d0 => exact ⟨d0, rfl⟩
    have hget0 : (lttList tz 0 tz.time_info).get? 0 = some (mkLTT tz 0 d0) := by
      rw [lttList_get?, hd0]; simp
    have hcook : cook tz = .ok
        ⟨⟨Option.none, ⟨(mkLTT tz 0 d0).to_fixed_timespan, []⟩⟩,
          tz.leap_seconds.map (fun ls => LeapSecond.mk ls.timestamp ls.leap_second_count)⟩ := by
      simp only [cook, hbuild, hlink]
      rw [htr]
      simp only [linkPure, List.map_nil, hget0]
    exact ⟨_, d0, hcook, rfl, hd0, rfl⟩

/-- Witness for cook_round_trip: a concrete raw TZData with two transitions
and one local time type named "EST". -/
theorem cook_round_trip_witness :
    ∃ (out : TZData) (d0 : parser.LocalTimeTypeData),
      cook ⟨⟨0, 0, 0, 0, 2, 1, 4⟩, [⟨100, 0⟩, ⟨200, 0⟩], [⟨3600, 0, 0⟩], [],
        [69, 83, 84, 0], [], []⟩ = .ok out ∧
      out.time_zone.fixed_timespans.rest.length = 1 ∧
      ([⟨3600, 0, 0⟩] : List parser.LocalTimeTypeData).get? 0 = some d0 ∧
      out.time_zone.fixed_timespans.first =
        (mkLTT ⟨⟨0, 0, 0, 0, 2, 1, 4⟩, [⟨100, 0⟩, ⟨200, 0⟩], [⟨3600, 0, 0⟩], [],
          [69, 83, 84, 0], [], []⟩ 0 d0).to_fixed_timespan := by
  obtain ⟨out, d0, h1, h2, h3, h4⟩ :=
    (cook_round_trip
      ⟨⟨0, 0, 0, 0, 2, 1, 4⟩, [⟨100, 0⟩, ⟨200, 0⟩], [⟨3600, 0, 0⟩], [],
        [69, 83, 84, 0], [], []⟩
      rfl rfl (by decide) (by decide)).1 ⟨100, 0⟩ [⟨200, 0⟩] rfl
  exact ⟨out, d0, h1, h2, h3, h4⟩

/-- C10: cook's transition-linking step indexes the catalog directly: on a
raw TZData (header counts matching vector lengths, names valid UTF-8) in
which some transition's local_time_type_index is at or beyond the number of
local time types, cook panics (out-of-bounds access, modelled as fault)
rather than returning a typed error; and whenever every transition index is
strictly below the catalog length, the linking loop succeeds and cannot
fault. -/
theorem cook_oob_index_panics :
    (∀ tz : parser.TZData,
      tz.header.num_transitions = tz.transitions.length →
      tz.header.num_local_time_types = tz.time_info.length →
      (∀ d ∈ tz.time_info, validUTF8 (extractName tz.strings d.name_offset) = true) →
      (∃ t ∈ tz.transitions, tz.header.num_local_time_types ≤ t.local_time_type_index) →
      cook tz = COut.fault) ∧
    (∀ (ltts : List LocalTimeType) (ts : List parser.TransitionData),
      (∀ t ∈ ts, t.local_time_type_index < ltts.length) →
      ∃ rs, link_transitions ltts ts.length ts = .ok rs ∧ rs.length = ts.length) := by
  constructor
  · intro tz hT hN hnames hex
    have hbuild : build_local_time_types tz 0 tz.header.num_local_time_types tz.time_info
        = .ok (lttList tz 0 tz.time_info) := by
      rw [hN]; exact build_ok tz tz.time_info hnames 0
    have hlen : (lttList tz 0 tz.time_info).length = tz.time_info.length :=
      lttList_length tz tz.time_info 0
    have hfault : link_transitions (lttList tz 0 tz.time_info)
        tz.header.num_transitions tz.transitions = .fault := by
      rw [hT]
      apply link_fault
      obtain ⟨t, htm, hge⟩ := hex
      exact ⟨t, htm, by rw [hlen, ← hN]; exact hge⟩
    simp only [cook, hbuild, hfault]
  · intro ltts ts h
    exact ⟨linkPure ltts ts, link_ok ltts ts h, by simp [linkPure]⟩

/-- Witness for cook_oob_index_panics: one transition whose type index 5 is
beyond a one-element catalog makes cook fault. -/
theorem cook_oob_index_panics_witness :
    cook ⟨⟨0, 0, 0, 0, 1, 1, 0⟩, [⟨100, 5⟩], [⟨0, 0, 0⟩], [], [], [], []⟩ = COut.fault :=
  cook_oob_index_panics.1
    ⟨⟨0, 0, 0, 0, 1, 1, 0⟩, [⟨100, 5⟩], [⟨0, 0, 0⟩], [], [], [], []⟩
    rfl rfl (by decide) ⟨⟨100, 5⟩, by decide, by decide⟩

/-! Helper lemmas for the section readers (C8). -/

lemma readU8_short (buf : List Nat) (h : buf.length < 1) :
    parser.readU8 buf = .error .truncated := by
  cases buf with
  | nil => rfl
  | cons a l => simp at h

lemma readU8_complete (buf : List Nat) (h : 1 ≤ buf.length) :
    ∃ v rest, parser.readU8 buf = .ok (v, rest) ∧ buf.length = rest.length + 1 := by
  cases buf with
  | nil => simp at h
  | cons a l => exact ⟨a, l, rfl, by simp⟩

lemma readI32BE_short (buf : List Nat) (h : buf.length < 4) :
    parser.readI32BE buf = .error .truncated := by
  match buf with
  | [] => rfl
  | [a] => rfl
  | [a, b] => rfl
  | [a, b, c] => rfl
  | a :: b :: c :: d :: rest => simp only [List.length_cons] at h; omega

lemma readI32BE_complete (buf : List Nat) (h : 4 ≤ buf.length) :
    ∃ v rest, parser.readI32BE buf = .ok (v, rest) ∧ buf.length = rest.length + 4 := by
  match buf with
  | [] => simp at h
  | [a] => simp at h
  | [a, b] => simp at h
  | [a, b, c] => simp at h
  | a :: b :: c :: d :: rest =>
    exact ⟨parser.toI32 (((a * 256 + b) * 256 + c) * 256 + d), rest, rfl,
      by simp only [List.length_cons]⟩

lemma readLTTRecord_short (buf : List Nat) (h : buf.length < 6) :
    parser.readLTTRecord buf = .error .truncated := by
  by_cases h4 : buf.length < 4
  · simp only [parser.readLTTRecord, readI32BE_short buf h4]
  · push_neg at h4
    obtain ⟨v, rest, hr, hlen⟩ := readI32BE_complete buf h4
    by_cases h1 : rest.length < 1
    · simp only [parser.readLTTRecord, hr, readU8_short rest h1]
    · push_neg at h1
      obtain ⟨v2, rest2, hr2, hlen2⟩ := readU8_complete rest h1
      have h2 : rest2.length < 1 := by omega
      simp only [parser.readLTTRecord, hr, hr2, readU8_short rest2 h2]

lemma readLTTRecord_complete (buf : List Nat) (h : 6 ≤ buf.length) :
    ∃ v rest, parser.readLTTRecord buf = .ok (v, rest) ∧ buf.length = rest.length + 6 := by
  obtain ⟨v1, r1, h1, l1⟩ := readI32BE_complete buf (by omega)
  obtain ⟨v2, r2, h2, l2⟩ := readU8_complete r1 (by omega)
  obtain ⟨v3, r3, h3, l3⟩ := readU8_complete r2 (by omega)
  exact ⟨⟨v1, v2, v3⟩, r3, by simp only [parser.readLTTRecord, h1, h2, h3], by omega⟩

lemma readLeapRecord_short (buf : List Nat) (h : buf.length < 8) :
    parser.readLeapRecord buf = .error .truncated := by
  by_cases h4 : buf.length < 4
  · simp only [parser.readLeapRecord, readI32BE_short buf h4]
  · push_neg at h4
    obtain ⟨v, rest, hr, hlen⟩ := readI32BE_complete buf h4
    have h2 : rest.length < 4 := by omega
    simp only [parser.readLeapRecord, hr, readI32BE_short rest h2]

lemma readLeapRecord_complete (buf : List Nat) (h : 8 ≤ buf.length) :
    ∃ v rest, parser.readLeapRecord buf = .ok (v, rest) ∧ buf.length = rest.length + 8 := by
  obtain ⟨v1, r1, h1, l1⟩ := readI32BE_complete buf (by omega)
  obtain ⟨v2, r2, h2, l2⟩ := readI32BE_complete r1 (by omega)
  exact ⟨⟨v1, v2⟩, r2, by simp only [parser.readLeapRecord, h1, h2], by omega⟩

lemma readN_complete {α : Type} (r : List Nat → Except parser.Error (α × List Nat)) (k : Nat)
    (hc : ∀ buf : List Nat, k ≤ buf.length →
      ∃ v rest, r buf = .ok (v, rest) ∧ buf.length = rest.length + k) :
    ∀ (c : Nat) (buf : List Nat), k * c ≤ buf.length →
      ∃ xs rest, parser.readN r c buf = .ok (xs, rest) ∧
        buf.length = rest.length + k * c := by
  intro c
  induction c with
  | zero => intro buf h; exact ⟨[], buf, rfl, by omega⟩
  | succ c ih =>
    intro buf h
    rw [Nat.mul_succ] at h
    have hk : k ≤ buf.length := by omega
    obtain ⟨v, rest, hr, hlen⟩ := hc buf hk
    have hrest : k * c ≤ rest.length := by omega
    obtain ⟨xs, rest2, hrN, hlen2⟩ := ih rest hrest
    refine ⟨v :: xs, rest2, ?_, by rw [Nat.mul_succ]; omega⟩
    simp only [parser.readN, hr, hrN]

lemma readN_truncated {α : Type} (r : List Nat → Except parser.Error (α × List Nat)) (k : Nat)
    (hs : ∀ buf : List Nat, buf.length < k → r buf = .error .truncated)
    (hc : ∀ buf : List Nat, k ≤ buf.length →
      ∃ v rest, r buf = .ok (v, rest) ∧ buf.length = rest.length + k) :
    ∀ (c : Nat) (buf : List Nat), buf.length < k * c →
      parser.readN r c buf = .error .truncated := by
  intro c
  induction c with
  | zero => intro buf h; rw [Nat.mul_zero] at h; exact absurd h (Nat.not_lt_zero _)
  | succ c ih =>
    intro buf h
    by_cases hb : buf.length < k
    · simp only [parser.readN, hs buf hb]
    · push_neg at hb
      obtain ⟨v, rest, hr, hlen⟩ := hc buf hb
      have hrest : rest.length < k * c := by rw [Nat.mul_succ] at h; omega
      simp only [parser.readN, hr, ih rest hrest]

lemma readN_ok_length {α : Type} (r : List Nat → Except parser.Error (α × List Nat)) :
    ∀ (c : Nat) (buf : List Nat) (xs : List α) (rest : List Nat),
      parser.readN r c buf = .ok (xs, rest) → xs.length = c := by
  intro c
  induction c with
  | zero =>
    intro buf xs rest h
    simp only [parser.readN, Except.ok.injEq, Prod.mk.injEq] at h
    rw [← h.1]
    rfl
  | succ c ih =>
    intro buf xs rest h
    cases hr : r buf with
    | error e =>
      simp only [parser.readN, hr] at h
      exact Except.noConfusion h
    | ok p =>
      obtain ⟨v, rest1⟩ := p
      cases hN : parser.readN r c rest1 with
      | error e =>
        simp only [parser.readN, hr, hN] at h
        exact Except.noConfusion h
      | ok q =>
        obtain ⟨vs, rest2⟩ := q
        simp only [parser.readN, hr, hN, Except.ok.injEq, Prod.mk.injEq] at h
        rw [← h.1, List.length_cons, ih rest1 vs rest2 hN]

lemma read_transition_data_truncated (c : Nat) (buf : List Nat) (h : buf.length < 5 * c) :
    parser.read_transition_data c buf = .error .truncated := by
  by_cases h4 : buf.length < 4 * c
  · simp only [parser.read_transition_data,
      readN_truncated parser.readI32BE 4 readI32BE_short readI32BE_complete c buf h4]
  · push_neg at h4
    obtain ⟨xs, rest, hr, hlen⟩ := readN_complete parser.readI32BE 4 readI32BE_complete c buf h4
    have hrest : rest.length < 1 * c := by omega
    simp only [parser.read_transition_data, hr,
      readN_truncated parser.readU8 1 readU8_short readU8_complete c rest hrest]

lemma read_transition_data_length (c : Nat) (buf : List Nat)
    (xs : List parser.TransitionData) (rest : List Nat)
    (h : parser.read_transition_data c buf = .ok (xs, rest)) : xs.length = c := by
  cases h1 : parser.readN parser.readI32BE c buf with
  | error e =>
    simp only [parser.read_transition_data, h1] at h
    exact Except.noConfusion h
  | ok p =>
    obtain ⟨times, r1⟩ := p
    cases h2 : parser.readN parser.readU8 c r1 with
    | error e =>
      simp only [parser.read_transition_data, h1, h2] at h
      exact Except.noConfusion h
    | ok q =>
      obtain ⟨types, r2⟩ := q
      simp only [parser.read_transition_data, h1, h2, Except.ok.injEq, Prod.mk.injEq] at h
      have lt1 := readN_ok_length parser.readI32BE c buf times r1 h1
      have lt2 := readN_ok_length parser.readU8 c r1 types r2 h2
      rw [← h.1]
      simp [List.length_zip, lt1, lt2]

lemma parse_ok_lengths (buf : List Nat) (limits : parser.Limits) (tz : parser.TZData)
    (hp : parser.parse buf limits = .ok tz) :
    tz.transitions.length = tz.header.num_transitions ∧
    tz.time_info.length = tz.header.num_local_time_types ∧
    tz.strings.length = tz.header.num_abbr_chars ∧
    tz.leap_seconds.length = tz.header.num_leap_seconds ∧
    tz.standard_flags.length = tz.header.num_standard_flags ∧
    tz.gmt_flags.length = tz.header.num_gmt_flags := by
  cases hm : parser.read_magic_number buf with
  | error e => simp only [parser.parse, hm] at hp; exact Except.noConfusion hp
  | ok r1 =>
  cases hh : parser.read_header (parser.skip_initial_zeroes r1) with
  | error e => simp only [parser.parse, hm, hh] at hp; exact Except.noConfusion hp
  | ok ph =>
  obtain ⟨header, r3⟩ := ph
  cases hv : limits.verify header with
  | error e => simp only [parser.parse, hm, hh, hv] at hp; exact Except.noConfusion hp
  | ok u =>
  cases u
  cases h4 : parser.read_transition_data header.num_transitions r3 with
  | error e => simp only [parser.parse, hm, hh, hv, h4] at hp; exact Except.noConfusion hp
  | ok p4 =>
  obtain ⟨transitions, r4⟩ := p4
  cases h5 : parser.read_local_time_type_data header.num_local_time_types r4 with
  | error e => simp only [parser.parse, hm, hh, hv, h4, h5] at hp; exact Except.noConfusion hp
  | ok p5 =>
  obtain ⟨time_info, r5⟩ := p5
  cases h6 : parser.read_octets header.num_abbr_chars r5 with
  | error e => simp only [parser.parse, hm, hh, hv, h4, h5, h6] at hp; exact Except.noConfusion hp
  | ok p6 =>
  obtain ⟨strings, r6⟩ := p6
  cases h7 : parser.read_leap_second_data header.num_leap_seconds r6 with
  | error e =>
    simp only [parser.parse, hm, hh, hv, h4, h5, h6, h7] at hp
    exact Except.noConfusion hp
  | ok p7 =>
  obtain ⟨leap_seconds, r7⟩ := p7
  cases h8 : parser.read_octets header.num_standard_flags r7 with
  | error e =>
    simp only [parser.parse, hm, hh, hv, h4, h5, h6, h7, h8] at hp
    exact Except.noConfusion hp
  | ok p8 =>
  obtain ⟨standard_flags, r8⟩ := p8
  cases h9 : parser.read_octets header.num_gmt_flags r8 with
  | error e =>
    simp only [parser.parse, hm, hh, hv, h4, h5, h6, h7, h8, h9] at hp
    exact Except.noConfusion hp
  | ok p9 =>
  obtain ⟨gmt_flags, r9⟩ := p9
  simp only [parser.parse, hm, hh, hv, h4, h5, h6, h7, h8, h9, Except.ok.injEq] at hp
  rw [← hp]
  refine ⟨read_transition_data_length _ _ _ _ h4,
    readN_ok_length parser.readLTTRecord _ _ _ _ h5,
    readN_ok_length parser.readU8 _ _ _ _ h6,
    readN_ok_length parser.readLeapRecord _ _ _ _ h7,
    readN_ok_length parser.readU8 _ _ _ _ h8,
    readN_ok_length parser.readU8 _ _ _ _ h9⟩

/-- C8: for every buffer on which parse succeeds, the lengths of the
returned TZData vectors equal exactly the six header counts; and each
variable-length section reader fails with a truncation error when the
remaining buffer is exhausted before its count of fixed-size records
(5 bytes per transition, 6 per local time type, 1 per abbreviation or flag
byte, 8 per leap second) is consumed. -/
theorem parse_section_lengths :
    (∀ (buf : List Nat) (limits : parser.Limits) (tz : parser.TZData),
      parser.parse buf limits = .ok tz →
      tz.transitions.length = tz.header.num_transitions ∧
      tz.time_info.length = tz.header.num_local_time_types ∧
      tz.strings.length = tz.header.num_abbr_chars ∧
      tz.leap_seconds.length = tz.header.num_leap_seconds ∧
      tz.standard_flags.length = tz.header.num_standard_flags ∧
      tz.gmt_flags.length = tz.header.num_gmt_flags) ∧
    (∀ (c : Nat) (buf : List Nat), buf.length < 5 * c →
      parser.read_transition_data c buf = .error .truncated) ∧
    (∀ (c : Nat) (buf : List Nat), buf.length < 6 * c →
      parser.read_local_time_type_data c buf = .error .truncated) ∧
    (∀ (c : Nat) (buf : List Nat), buf.length < c →
      parser.read_octets c buf = .error .truncated) ∧
    (∀ (c : Nat) (buf : List Nat), buf.length < 8 * c →
      parser.read_leap_second_data c buf = .error .truncated) :=
  ⟨parse_ok_lengths,
   read_transition_data_truncated,
   fun c buf h =>
     readN_truncated parser.readLTTRecord 6 readLTTRecord_short readLTTRecord_complete c buf h,
   fun c buf h =>
     readN_truncated parser.readU8 1 readU8_short readU8_complete c buf (by omega),
   fun c buf h =>
     readN_truncated parser.readLeapRecord 8 readLeapRecord_short readLeapRecord_complete c buf h⟩

/-- Witness for parse_section_lengths: a minimal 44-byte file with all six
counts zero parses to empty vectors, and a one-byte buffer cannot hold two
abbreviation bytes. -/
theorem parse_section_lengths_witness :
    (([] : List parser.TransitionData).length = (0 : Nat) ∧
     ([] : List parser.LocalTimeTypeData).length = (0 : Nat) ∧
     ([] : List Nat).length = (0 : Nat) ∧
     ([] : List parser.LeapSecondData).length = (0 : Nat) ∧
     ([] : List Nat).length = (0 : Nat) ∧
     ([] : List Nat).length = (0 : Nat)) ∧
    parser.read_octets 2 [7] = .error .truncated := by
  constructor
  · exact parse_section_lengths.1
      [84, 90, 105, 102,
        0, 0, 0, 0, 0, 0, 0, 0, 0, 0, 0, 0, 0, 0, 0,
        0,
        0, 0, 0, 0, 0, 0, 0, 0, 0, 0, 0, 0, 0, 0, 0, 0, 0, 0, 0, 0, 0, 0, 0, 0]
      parser.Limits.sensible ⟨⟨0, 0, 0, 0, 0, 0, 0⟩, [], [], [], [], [], []⟩ (by rfl)
  · exact parse_section_lengths.2.2.2.1 2 [7] (by decide)
